import Mathlib

/-!
Verification development for PyDebFlow.

The driver `run_simulation.py` is embedded directly (its post-processing of
solver outputs, initial-condition setup, parameter construction, runout
metric and release-zone defaulting).  The numerical core
(`Terrain`, `FlowState`, `TwoPhaseFlowModel`, `NOCTVDSolver`) is imported by
the driver from modules that are not part of the embedded sources; those
parts are modelled from the specification, as marked in the doc comments.

Real-valued fields of the program are modelled over `ℚ` (exact arithmetic),
except where a square root forces `ℝ`.  Grids are total functions
`Nat → Nat → ℚ`; the grid extent `(rows, cols)` is carried separately and
all aggregates range over `Finset.range`.
-/

namespace PyDebFlow

/-- Modelled from the spec: `FlowParameters` (§3) — the physical constant set
owned by `TwoPhaseFlowModel`; `flow_model.py` is not among the embedded
sources, only its constructor calls in the driver are. -/
structure FlowParameters where
  solid_density : ℚ
  fluid_density : ℚ
  basal_friction_angle : ℚ
  voellmy_mu : ℚ
  voellmy_xi : ℚ

/-- Modelled from the spec: `SolverConfig` (§3) — numerical-method knobs of
the NOC-TVD solver; `noc_tvd_solver.py` is not among the embedded sources.
The default limiter and boundary strings follow the examples of §3. -/
structure SolverConfig where
  cfl_number : ℚ
  max_timestep : ℚ
  flux_limiter : String := "minmod"
  boundary_type : String := "outflow"

/-- Modelled from the spec: the `Terrain` attributes read by the driver
(§3, §6) — grid extent, cell size and georeference origin. -/
structure Terrain where
  rows : Nat
  cols : Nat
  cell_size : ℚ
  x_origin : ℚ
  y_origin : ℚ

/-- Modelled from the spec: `FlowState` (§3) — per-cell depth of each phase
and the two velocity components of each phase, as grids. -/
structure FlowState where
  h_solid : Nat → Nat → ℚ
  h_fluid : Nat → Nat → ℚ
  u_solid : Nat → Nat → ℚ
  v_solid : Nat → Nat → ℚ
  u_fluid : Nat → Nat → ℚ
  v_fluid : Nat → Nat → ℚ

/-- `FlowState.zeros` — the zero-filled state the drivers start from
(`run_simulation.py` lines 84 and 323). -/
def FlowState.zeros : FlowState where
  h_solid := fun _ _ => 0
  h_fluid := fun _ _ => 0
  u_solid := fun _ _ => 0
  v_solid := fun _ _ => 0
  u_fluid := fun _ _ => 0
  v_fluid := fun _ _ => 0

/-- Sum of a grid over the `(rows, cols)` extent (the `.sum()` of a NumPy
array of that shape). -/
def gridSum (rows cols : Nat) (g : Nat → Nat → ℚ) : ℚ :=
  ∑ i ∈ Finset.range rows, ∑ j ∈ Finset.range cols, g i j

/-- The driver's volume formula `(h_solid.sum() + h_fluid.sum()) * cell_size**2`
(`run_simulation.py` lines 96, 170, 328). -/
def volume (rows cols : Nat) (cs : ℚ) (s : FlowState) : ℚ :=
  (gridSum rows cols s.h_solid + gridSum rows cols s.h_fluid) * cs ^ 2

/-- The 70/30 phase split of the release field applied by both drivers:
`state.h_solid = release * 0.7`, `state.h_fluid = release * 0.3` on the
zero state (`run_simulation.py` lines 84, 93–94 and 323, 325–326). -/
def initState (release : Nat → Nat → ℚ) : FlowState where
  h_solid := fun i j => release i j * (7 / 10)
  h_fluid := fun i j => release i j * (3 / 10)
  u_solid := fun _ _ => 0
  v_solid := fun _ _ => 0
  u_fluid := fun _ _ => 0
  v_fluid := fun _ _ => 0

/-- The `FlowParameters` constructed by `run_synthetic_test`
(`run_simulation.py` lines 61–67). -/
def syntheticParams : FlowParameters where
  solid_density := 2500
  fluid_density := 1100
  basal_friction_angle := 22
  voellmy_mu := 0.15
  voellmy_xi := 500

/-- The `SolverConfig` constructed by `run_synthetic_test`
(`run_simulation.py` lines 74–79). -/
def syntheticConfig : SolverConfig where
  cfl_number := 0.4
  max_timestep := 0.5
  flux_limiter := "minmod"
  boundary_type := "outflow"

/-- The `FlowParameters` constructed by `run_dem_simulation`
(`run_simulation.py` lines 309–315). -/
def demParams : FlowParameters where
  solid_density := 2500
  fluid_density := 1100
  basal_friction_angle := 22
  voellmy_mu := 0.12
  voellmy_xi := 400

/-- The `SolverConfig` constructed by `run_dem_simulation`
(`run_simulation.py` line 318); limiter and boundary keep their defaults. -/
def demConfig : SolverConfig where
  cfl_number := 0.4
  max_timestep := 0.5

/-- Release-zone centre defaulting of `run_dem_simulation`
(`run_simulation.py` lines 302–305): a missing row defaults to
`rows // 5` (upper portion), a missing column to `cols // 2` (centre). -/
def resolveRelease (rows cols : Nat) (ri rj : Option Nat) : Nat × Nat :=
  (match ri with
   | none => rows / 5
   | some i => i,
   match rj with
   | none => cols / 2
   | some j => j)

/-- Per-cell total depth `h_total = s.h_solid + s.h_fluid`
(`run_simulation.py` lines 129, 358). -/
def h_total (s : FlowState) (i j : Nat) : ℚ :=
  s.h_solid i j + s.h_fluid i j

/-- Squared solid-phase speed `u_solid**2 + v_solid**2`. -/
def speedSq (s : FlowState) (i j : Nat) : ℚ :=
  s.u_solid i j ^ 2 + s.v_solid i j ^ 2

/-- Per-cell solid-phase speed `np.sqrt(s.u_solid**2 + s.v_solid**2)`
(`run_simulation.py` lines 130, 359). -/
noncomputable def speed (s : FlowState) (i j : Nat) : ℝ :=
  Real.sqrt ((speedSq s i j : ℚ))

/-- Standard gravity, as a rational. -/
def gravity : ℚ := 981 / 100

/-- Modelled from the spec: `TwoPhaseFlowModel.compute_impact_pressure`
(§4.4; `flow_model.py` is not among the embedded sources) — a per-cell
diagnostic in kPa, dynamic plus hydrostatic pressure per phase, a function
of density, depth and velocity magnitude. -/
def computeImpactPressure (p : FlowParameters) (s : FlowState) (i j : Nat) : ℚ :=
  (p.solid_density * (speedSq s i j / 2 + gravity * s.h_solid i j)
    + p.fluid_density * ((s.u_fluid i j ^ 2 + s.v_fluid i j ^ 2) / 2
        + gravity * s.h_fluid i j)) / 1000

/-- The running cell-wise maximum accumulation of the driver loops
(`run_simulation.py` lines 124–135 and 351–364): starting from a grid `z`
(`np.zeros` in the source), fold `np.maximum(acc, f s)` over the recorded
`(time, state)` pairs. -/
def accMax {α : Type} [LinearOrder α] (f : FlowState → Nat → Nat → α)
    (z : Nat → Nat → α) (outs : List (ℚ × FlowState)) : Nat → Nat → α :=
  outs.foldl (fun acc ts => fun i j => max (acc i j) (f ts.2 i j)) z

/-- `outputs[-1]`, the last recorded `(time, state)` pair
(`run_simulation.py` lines 137, 369); total with a zero-state default,
the drivers only ever apply it to non-empty output sequences. -/
def finalStateD (outs : List (ℚ × FlowState)) : FlowState :=
  (outs.getLastD (0, FlowState.zeros)).2

/-- The results record handed to the exporter (`run_simulation.py`
lines 140–149 and 373–382); field set as in `SimulationResults`. -/
structure SimulationResults where
  times : List ℚ
  max_flow_height : Nat → Nat → ℚ
  max_velocity : Nat → Nat → ℝ
  max_pressure : Nat → Nat → ℚ
  final_h_solid : Nat → Nat → ℚ
  final_h_fluid : Nat → Nat → ℚ
  final_u : Nat → Nat → ℚ
  final_v : Nat → Nat → ℚ

/-- The driver's post-processing of a solver output sequence into the
results record (`run_simulation.py` lines 124–149 and 351–382):
cell-wise maxima of total depth, solid speed and impact pressure over all
recorded snapshots, and the fields of the last snapshot. -/
noncomputable def buildResults (p : FlowParameters)
    (outs : List (ℚ × FlowState)) : SimulationResults where
  times := outs.map Prod.fst
  max_flow_height := accMax (fun s i j => h_total s i j) (fun _ _ => 0) outs
  max_velocity := accMax (fun s i j => speed s i j) (fun _ _ => 0) outs
  max_pressure := accMax (fun s i j => computeImpactPressure p s i j) (fun _ _ => 0) outs
  final_h_solid := (finalStateD outs).h_solid
  final_h_fluid := (finalStateD outs).h_fluid
  final_u := (finalStateD outs).u_solid
  final_v := (finalStateD outs).v_solid

/-- The metadata dictionary handed to the exporter
(`run_simulation.py` lines 151–155 and 384–388). -/
structure Metadata where
  cell_size : ℚ
  x_origin : ℚ
  y_origin : ℚ

/-- Construction of the exporter metadata from the terrain
(`run_simulation.py` lines 151–155 and 384–388). -/
def buildMetadata (t : Terrain) : Metadata where
  cell_size := t.cell_size
  x_origin := t.x_origin
  y_origin := t.y_origin

/-- Row sum `max_height.sum(axis=1)` of a grid over `cols` columns
(`run_simulation.py` line 172). -/
def rowSum (g : Nat → Nat → ℚ) (cols i : Nat) : ℚ :=
  ∑ j ∈ Finset.range cols, g i j

/-- Index of the first `true` of `p` among `i, i+1, …, i+n-1`, and `0`
when there is none — the semantics of `np.argmax` on a boolean vector. -/
def argmaxFrom (p : Nat → Bool) : Nat → Nat → Nat
  | _, 0 => 0
  | i, n + 1 => if p i then i else argmaxFrom p (i + 1) n

/-- The runout row index `np.argmax(max_height.sum(axis=1) > 0)`
(`run_simulation.py` line 172). -/
def runoutIdx (g : Nat → Nat → ℚ) (rows cols : Nat) : Nat :=
  argmaxFrom (fun i => decide (0 < rowSum g cols i)) 0 rows

/-- The reported approximate runout `runout * terrain.cell_size`
(`run_simulation.py` line 182). -/
def runoutDistance (g : Nat → Nat → ℚ) (rows cols : Nat) (cs : ℚ) : ℚ :=
  (runoutIdx g rows cols : ℚ) * cs

/-- Modelled from the spec: the right-hand side supplied to the NOC-TVD
solver by `TwoPhaseFlowModel` together with the entrainment collaborator
(§4.3, §4.4; `flow_model.py`, `entrainment.py` and `noc_tvd_solver.py` are
not among the embedded sources).  For a given state it yields the mass flux
of each phase across each x-face (face index `i ∈ [0, rows]`) and y-face
(face index `j ∈ [0, cols]`), the per-phase entrainment exchange rate, and
the velocity fields produced by the momentum balance, which the claims
below treat as opaque. -/
structure TwoPhaseRHS where
  fluxSolidX : FlowState → Nat → Nat → ℚ
  fluxSolidY : FlowState → Nat → Nat → ℚ
  fluxFluidX : FlowState → Nat → Nat → ℚ
  fluxFluidY : FlowState → Nat → Nat → ℚ
  entrainSolid : FlowState → Nat → Nat → ℚ
  entrainFluid : FlowState → Nat → Nat → ℚ
  newUSolid : FlowState → Nat → Nat → ℚ
  newVSolid : FlowState → Nat → Nat → ℚ
  newUFluid : FlowState → Nat → Nat → ℚ
  newVFluid : FlowState → Nat → Nat → ℚ

/-- Modelled from the spec: the raw (pre-clamp) solid depth of §4.5 step 4 —
explicit conservation-form update by the face-flux differences over
`lam = dt / cell_size`, plus the entrainment exchange over `dt`. -/
def rawHSolid (M : TwoPhaseRHS) (lam dt : ℚ) (s : FlowState) (i j : Nat) : ℚ :=
  s.h_solid i j
    - lam * (M.fluxSolidX s (i + 1) j - M.fluxSolidX s i j
        + M.fluxSolidY s i (j + 1) - M.fluxSolidY s i j)
    + dt * M.entrainSolid s i j

/-- Modelled from the spec: the raw (pre-clamp) fluid depth of §4.5 step 4. -/
def rawHFluid (M : TwoPhaseRHS) (lam dt : ℚ) (s : FlowState) (i j : Nat) : ℚ :=
  s.h_fluid i j
    - lam * (M.fluxFluidX s (i + 1) j - M.fluxFluidX s i j
        + M.fluxFluidY s i (j + 1) - M.fluxFluidY s i j)
    + dt * M.entrainFluid s i j

/-- Modelled from the spec: one solver step (§4.5 steps 4–5) — advance the
conserved depths in flux form, clamp negative depths to zero, and zero the
velocity of a clamped phase; an unclamped phase takes the velocity produced
by the momentum balance. -/
def stepState (M : TwoPhaseRHS) (lam dt : ℚ) (s : FlowState) : FlowState where
  h_solid := fun i j => max 0 (rawHSolid M lam dt s i j)
  h_fluid := fun i j => max 0 (rawHFluid M lam dt s i j)
  u_solid := fun i j =>
    if rawHSolid M lam dt s i j < 0 then 0 else M.newUSolid s i j
  v_solid := fun i j =>
    if rawHSolid M lam dt s i j < 0 then 0 else M.newVSolid s i j
  u_fluid := fun i j =>
    if rawHFluid M lam dt s i j < 0 then 0 else M.newUFluid s i j
  v_fluid := fun i j =>
    if rawHFluid M lam dt s i j < 0 then 0 else M.newVFluid s i j

/-- Modelled from the spec: the state after `n` solver steps, with the
adaptive timestep sequence `dts` (§4.5 step 3 computes each `dts k`; its
value is opaque to the claims below). -/
def stateAt (M : TwoPhaseRHS) (cs : ℚ) (dts : Nat → ℚ) (s0 : FlowState) :
    Nat → FlowState
  | 0 => s0
  | n + 1 => stepState M (dts n / cs) (dts n) (stateAt M cs dts s0 n)

/-- Modelled from the spec: the simulation clock after `n` steps
(§4.5 step 6). -/
def timeAt (dts : Nat → ℚ) (n : Nat) : ℚ :=
  ∑ k ∈ Finset.range n, dts k

/-- Modelled from the spec: `run_simulation` (§4.5, §6) — the ordered
sequence of recorded `(time, state)` pairs of an `n`-step run.  This model
records every step (the source records at output intervals plus the final
state, a subsequence of these). -/
def run_simulation (M : TwoPhaseRHS) (cs : ℚ) (dts : Nat → ℚ)
    (s0 : FlowState) (n : Nat) : List (ℚ × FlowState) :=
  (List.range (n + 1)).map (fun k => (timeAt dts k, stateAt M cs dts s0 k))

/-- A closed domain: no mass flux through any boundary face, for either
phase — the "outflow boundaries never triggered, flow fully contained"
premise. -/
def ClosedDomain (M : TwoPhaseRHS) (rows cols : Nat) : Prop :=
  (∀ s j, M.fluxSolidX s 0 j = 0 ∧ M.fluxSolidX s rows j = 0
      ∧ M.fluxFluidX s 0 j = 0 ∧ M.fluxFluidX s rows j = 0)
  ∧ (∀ s i, M.fluxSolidY s i 0 = 0 ∧ M.fluxSolidY s i cols = 0
      ∧ M.fluxFluidY s i 0 = 0 ∧ M.fluxFluidY s i cols = 0)

/-- Entrainment disabled: the exchange rate is identically zero for both
phases. -/
def NoEntrainment (M : TwoPhaseRHS) : Prop :=
  ∀ s i j, M.entrainSolid s i j = 0 ∧ M.entrainFluid s i j = 0

/-! ### General helper lemmas -/

theorem foldl_max_init_le {α β : Type} [LinearOrder β] (g : α → β)
    (l : List α) (e : β) : e ≤ l.foldl (fun b x => max b (g x)) e := by
  induction l generalizing e with
  | nil => exact le_refl e
  | cons a l ih => exact le_trans (le_max_left _ _) (ih (max e (g a)))

theorem foldl_max_le {α β : Type} [LinearOrder β] (g : α → β)
    (l : List α) (e : β) :
    ∀ x ∈ l, g x ≤ l.foldl (fun b y => max b (g y)) e := by
  induction l generalizing e with
  | nil => intro x hx; exact absurd hx (List.not_mem_nil x)
  | cons a l ih =>
    intro x hx
    rcases List.mem_cons.mp hx with rfl | hx
    · exact le_trans (le_max_right _ _) (foldl_max_init_le g l (max e (g x)))
    · exact ih (max e (g a)) x hx

theorem foldl_max_init_or_mem {α β : Type} [LinearOrder β] (g : α → β)
    (l : List α) (e : β) :
    l.foldl (fun b y => max b (g y)) e = e
      ∨ ∃ x ∈ l, l.foldl (fun b y => max b (g y)) e = g x := by
  induction l generalizing e with
  | nil => exact Or.inl rfl
  | cons a l ih =>
    rcases ih (max e (g a)) with h | ⟨x, hx, hfx⟩
    · show l.foldl _ (max e (g a)) = e ∨ _
      rcases le_total (g a) e with hc | hc
      · rw [h, max_eq_left hc]; exact Or.inl rfl
      · refine Or.inr ⟨a, List.mem_cons_self a l, ?_⟩
        show l.foldl _ (max e (g a)) = g a
        rw [h, max_eq_right hc]
    · exact Or.inr ⟨x, List.mem_cons_of_mem a hx, hfx⟩

theorem accMax_apply {α : Type} [LinearOrder α] (f : FlowState → Nat → Nat → α)
    (z : Nat → Nat → α) (outs : List (ℚ × FlowState)) (i j : Nat) :
    accMax f z outs i j
      = outs.foldl (fun b ts => max b (f ts.2 i j)) (z i j) := by
  induction outs generalizing z with
  | nil => rfl
  | cons a l ih => exact ih (fun i j => max (z i j) (f a.2 i j))

/-! ### Claim theorems: driver constants and initial condition -/

/-- C7: every `FlowParameters` and `SolverConfig` the drivers construct lies
in the documented physical ranges — positive densities, `cfl_number` in
`(0, 1]`, friction angle in `[0°, 90°)`; the concrete constants are
2500/1100, 22° and 0.4. -/
theorem C7_parameter_ranges :
    (0 < syntheticParams.solid_density ∧ 0 < syntheticParams.fluid_density
      ∧ 0 ≤ syntheticParams.basal_friction_angle
      ∧ syntheticParams.basal_friction_angle < 90)
    ∧ (0 < demParams.solid_density ∧ 0 < demParams.fluid_density
      ∧ 0 ≤ demParams.basal_friction_angle
      ∧ demParams.basal_friction_angle < 90)
    ∧ (0 < syntheticConfig.cfl_number ∧ syntheticConfig.cfl_number ≤ 1)
    ∧ (0 < demConfig.cfl_number ∧ demConfig.cfl_number ≤ 1)
    ∧ syntheticParams.solid_density = 2500
    ∧ syntheticParams.fluid_density = 1100
    ∧ syntheticParams.basal_friction_angle = 22
    ∧ syntheticConfig.cfl_number = 0.4
    ∧ demParams.solid_density = 2500
    ∧ demParams.fluid_density = 1100
    ∧ demParams.basal_friction_angle = 22
    ∧ demConfig.cfl_number = 0.4 := by
  refine ⟨⟨?_, ?_, ?_, ?_⟩, ⟨?_, ?_, ?_, ?_⟩, ⟨?_, ?_⟩, ⟨?_, ?_⟩,
    ?_, ?_, ?_, ?_, ?_, ?_, ?_, ?_⟩ <;>
    norm_num [syntheticParams, demParams, syntheticConfig, demConfig]

/-- C9: both drivers split the release field 70/30 between the phases, so
the per-cell initial total depth equals the release field exactly and the
reported initial volume is `(sum of release) * cell_size²`. -/
theorem C9_initial_split (release : Nat → Nat → ℚ) (rows cols : Nat) (cs : ℚ) :
    (∀ i j, (initState release).h_solid i j = (7 / 10) * release i j
      ∧ (initState release).h_fluid i j = (3 / 10) * release i j
      ∧ (initState release).h_solid i j + (initState release).h_fluid i j
          = release i j)
    ∧ volume rows cols cs (initState release)
        = gridSum rows cols release * cs ^ 2 := by
  constructor
  · intro i j
    refine ⟨by rw [mul_comm]; rfl, by rw [mul_comm]; rfl, ?_⟩
    show release i j * (7 / 10) + release i j * (3 / 10) = release i j
    ring
  · show (gridSum rows cols (fun i j => release i j * (7 / 10))
        + gridSum rows cols (fun i j => release i j * (3 / 10))) * cs ^ 2
        = gridSum rows cols release * cs ^ 2
    have h7 : gridSum rows cols (fun i j => release i j * (7 / 10))
        = gridSum rows cols release * (7 / 10) := by
      unfold gridSum
      simp only [← Finset.sum_mul]
    have h3 : gridSum rows cols (fun i j => release i j * (3 / 10))
        = gridSum rows cols release * (3 / 10) := by
      unfold gridSum
      simp only [← Finset.sum_mul]
    rw [h7, h3]; ring

/-- C10: `run_dem_simulation` defaults a missing release-zone centre
coordinate from the terrain extent — row `rows // 5`, column `cols // 2` —
and uses explicitly supplied coordinates unchanged. -/
theorem C10_release_defaults (rows cols : Nat) :
    (∀ rj, (resolveRelease rows cols none rj).1 = rows / 5)
    ∧ (∀ ri, (resolveRelease rows cols ri none).2 = cols / 2)
    ∧ (∀ i rj, (resolveRelease rows cols (some i) rj).1 = i)
    ∧ (∀ ri j, (resolveRelease rows cols ri (some j)).2 = j) :=
  ⟨fun _ => rfl, fun _ => rfl, fun _ _ => rfl, fun _ _ => rfl⟩

theorem argmaxFrom_none (p : Nat → Bool) :
    ∀ n i, (∀ k, i ≤ k → k < i + n → p k = false) → argmaxFrom p i n = 0 := by
  intro n
  induction n with
  | zero => intro i _; rfl
  | succ n ih =>
    intro i h
    have hpi : p i = false := h i (le_refl i) (by omega)
    show (if p i then i else argmaxFrom p (i + 1) n) = 0
    simp only [hpi, Bool.false_eq_true, if_false]
    exact ih (i + 1) (fun k hk1 hk2 => h k (by omega) (by omega))

theorem argmaxFrom_first (p : Nat → Bool) :
    ∀ n i m, i ≤ m → m < i + n → p m = true →
      (∀ k, i ≤ k → k < m → p k = false) → argmaxFrom p i n = m := by
  intro n
  induction n with
  | zero => intro i m h1 h2 _ _; omega
  | succ n ih =>
    intro i m h1 h2 hm hbelow
    show (if p i then i else argmaxFrom p (i + 1) n) = m
    by_cases hc : i = m
    · subst hc; simp only [hm, if_true]
    · have hpi : p i = false := hbelow i (le_refl i) (by omega)
      simp only [hpi, Bool.false_eq_true, if_false]
      exact ih (i + 1) m (by omega) (by omega) hm
        (fun k hk1 hk2 => hbelow k (by omega) hk2)

/-- C5: the runout metric is `argmax` of the boolean vector of positive
row-sums of `max_height`: the reported runout is `cell_size` times the
smallest row index whose row-sum is strictly positive, defaulting to index
0 when no row-sum is positive. -/
theorem C5_runout (g : Nat → Nat → ℚ) (rows cols : Nat) (cs : ℚ) :
    ((∀ i, i < rows → rowSum g cols i ≤ 0) → runoutIdx g rows cols = 0)
    ∧ (∀ i0, i0 < rows → 0 < rowSum g cols i0 →
        runoutIdx g rows cols < rows
        ∧ 0 < rowSum g cols (runoutIdx g rows cols)
        ∧ (∀ m, m < runoutIdx g rows cols → rowSum g cols m ≤ 0)
        ∧ runoutDistance g rows cols cs = cs * (runoutIdx g rows cols : ℚ)) := by
  constructor
  · intro hall
    refine argmaxFrom_none _ rows 0 (fun k hk1 hk2 => ?_)
    exact decide_eq_false (not_lt.mpr (hall k (by omega)))
  · intro i0 hi0 hpos
    have hex : ∃ k, 0 < rowSum g cols k := ⟨i0, hpos⟩
    set m := Nat.find hex with hm
    have hmle : m ≤ i0 := Nat.find_min' hex hpos
    have hmlt : m < rows := lt_of_le_of_lt hmle hi0
    have hmpos : 0 < rowSum g cols m := Nat.find_spec hex
    have hidx : runoutIdx g rows cols = m := by
      refine argmaxFrom_first _ rows 0 m (Nat.zero_le m) (by omega)
        (decide_eq_true hmpos) (fun k _ hk2 => ?_)
      exact decide_eq_false (Nat.find_min hex hk2)
    refine ⟨by rw [hidx]; exact hmlt, by rw [hidx]; exact hmpos, ?_, ?_⟩
    · intro k hk
      rw [hidx] at hk
      exact le_of_not_lt (Nat.find_min hex hk)
    · rw [runoutDistance, mul_comm]

theorem finalStateD_eq_getLast (outs : List (ℚ × FlowState)) (h : outs ≠ []) :
    finalStateD outs = (outs.getLast h).2 := by
  unfold finalStateD
  rw [List.getLastD_eq_getLast?, List.getLast?_eq_getLast_of_ne_nil h]
  rfl

/-- C4: the results record handed to the exporter carries exactly the
documented fields — `times` in the order of the solver output sequence,
the three cell-wise maxima, and the `final_*` fields taken from the last
recorded snapshot — together with metadata `{cell_size, x_origin,
y_origin}` taken from the terrain. -/
theorem C4_results_record (p : FlowParameters) (t : Terrain)
    (outs : List (ℚ × FlowState)) (h : outs ≠ []) :
    (buildResults p outs).times = outs.map Prod.fst
    ∧ (buildResults p outs).max_flow_height
        = accMax (fun s i j => h_total s i j) (fun _ _ => 0) outs
    ∧ (buildResults p outs).max_velocity
        = accMax (fun s i j => speed s i j) (fun _ _ => 0) outs
    ∧ (buildResults p outs).max_pressure
        = accMax (fun s i j => computeImpactPressure p s i j) (fun _ _ => 0) outs
    ∧ (buildResults p outs).final_h_solid = (outs.getLast h).2.h_solid
    ∧ (buildResults p outs).final_h_fluid = (outs.getLast h).2.h_fluid
    ∧ (buildResults p outs).final_u = (outs.getLast h).2.u_solid
    ∧ (buildResults p outs).final_v = (outs.getLast h).2.v_solid
    ∧ (buildMetadata t).cell_size = t.cell_size
    ∧ (buildMetadata t).x_origin = t.x_origin
    ∧ (buildMetadata t).y_origin = t.y_origin := by
  have hfin := finalStateD_eq_getLast outs h
  refine ⟨rfl, rfl, rfl, rfl, ?_, ?_, ?_, ?_, rfl, rfl, rfl⟩
  · show (finalStateD outs).h_solid = _
    rw [hfin]
  · show (finalStateD outs).h_fluid = _
    rw [hfin]
  · show (finalStateD outs).u_solid = _
    rw [hfin]
  · show (finalStateD outs).v_solid = _
    rw [hfin]

theorem foldl_max_attained {α β : Type} [LinearOrder β] (g : α → β)
    (l : List α) (e : β) (hne : l ≠ []) (hnn : ∀ x ∈ l, e ≤ g x) :
    ∃ x ∈ l, l.foldl (fun b y => max b (g y)) e = g x := by
  rcases foldl_max_init_or_mem g l e with h | h
  · obtain ⟨x0, l', rfl⟩ := List.exists_cons_of_ne_nil hne
    refine ⟨x0, List.mem_cons_self _ _, le_antisymm ?_ ?_⟩
    · rw [h]; exact hnn x0 (List.mem_cons_self _ _)
    · exact foldl_max_le g _ e x0 (List.mem_cons_self _ _)
  · exact h

theorem accMax_spec {α : Type} [LinearOrder α] (f : FlowState → Nat → Nat → α)
    (outs : List (ℚ × FlowState)) (i j : Nat) (e : α)
    (hne : outs ≠ []) (hnn : ∀ ts ∈ outs, e ≤ f ts.2 i j) :
    (∃ ts ∈ outs, accMax f (fun _ _ => e) outs i j = f ts.2 i j)
    ∧ ∀ ts ∈ outs, f ts.2 i j ≤ accMax f (fun _ _ => e) outs i j := by
  constructor
  · obtain ⟨x, hx, hfx⟩ := foldl_max_attained (fun ts => f ts.2 i j) outs e hne hnn
    refine ⟨x, hx, ?_⟩
    rw [accMax_apply]
    exact hfx
  · intro ts hts
    rw [accMax_apply]
    exact foldl_max_le (fun ts => f ts.2 i j) outs e ts hts

/-- C3: each exported maximum grid is the cell-wise maximum over all
recorded snapshots — `max_flow_height` of `h_solid + h_fluid`,
`max_velocity` of the solid-velocity magnitude, `max_pressure` of
`compute_impact_pressure` — for output sequences with non-negative depth
fields (each maximum is attained by some snapshot and bounds every
snapshot). -/
theorem C3_running_maxima (p : FlowParameters) (outs : List (ℚ × FlowState))
    (hne : outs ≠ [])
    (hdep : ∀ ts ∈ outs, ∀ i j, 0 ≤ ts.2.h_solid i j ∧ 0 ≤ ts.2.h_fluid i j)
    (hsd : 0 ≤ p.solid_density) (hfd : 0 ≤ p.fluid_density) :
    ∀ i j,
      ((∃ ts ∈ outs,
          (buildResults p outs).max_flow_height i j = h_total ts.2 i j)
        ∧ ∀ ts ∈ outs, h_total ts.2 i j ≤ (buildResults p outs).max_flow_height i j)
      ∧ ((∃ ts ∈ outs,
          (buildResults p outs).max_velocity i j = speed ts.2 i j)
        ∧ ∀ ts ∈ outs, speed ts.2 i j ≤ (buildResults p outs).max_velocity i j)
      ∧ ((∃ ts ∈ outs,
          (buildResults p outs).max_pressure i j = computeImpactPressure p ts.2 i j)
        ∧ ∀ ts ∈ outs,
            computeImpactPressure p ts.2 i j ≤ (buildResults p outs).max_pressure i j) := by
  intro i j
  have hh : ∀ ts ∈ outs, (0 : ℚ) ≤ h_total ts.2 i j := by
    intro ts hts
    have := hdep ts hts i j
    unfold h_total
    linarith [this.1, this.2]
  have hv : ∀ ts ∈ outs, (0 : ℝ) ≤ speed ts.2 i j := by
    intro ts _
    exact Real.sqrt_nonneg _
  have hp : ∀ ts ∈ outs, (0 : ℚ) ≤ computeImpactPressure p ts.2 i j := by
    intro ts hts
    have hd := hdep ts hts i j
    unfold computeImpactPressure speedSq
    have h1 : (0 : ℚ) ≤ ts.2.u_solid i j ^ 2 + ts.2.v_solid i j ^ 2 := by positivity
    have h2 : (0 : ℚ) ≤ ts.2.u_fluid i j ^ 2 + ts.2.v_fluid i j ^ 2 := by positivity
    have hg : (0 : ℚ) ≤ gravity := by norm_num [gravity]
    have := hd.1
    have := hd.2
    positivity
  exact ⟨accMax_spec (fun s i j => h_total s i j) outs i j 0 hne hh,
    accMax_spec (fun s i j => speed s i j) outs i j 0 hne hv,
    accMax_spec (fun s i j => computeImpactPressure p s i j) outs i j 0 hne hp⟩

theorem foldl_max_congr {α β γ : Type} [LinearOrder γ] {R : α → β → Prop}
    {g1 : α → γ} {g2 : β → γ} {l1 : List α} {l2 : List β}
    (h : List.Forall₂ R l1 l2) (hg : ∀ a b, R a b → g1 a = g2 b) :
    ∀ e, l1.foldl (fun x a => max x (g1 a)) e
      = l2.foldl (fun x b => max x (g2 b)) e := by
  induction h with
  | nil => intro e; rfl
  | @cons a b l1' l2' hab _ ih =>
    intro e
    show l1'.foldl _ (max e (g1 a)) = l2'.foldl _ (max e (g2 b))
    rw [hg a b hab]
    exact ih _

theorem getLastD_rel {α β : Type} {R : α → β → Prop} {l1 : List α}
    {l2 : List β} (h : List.Forall₂ R l1 l2) :
    ∀ d1 d2, R d1 d2 → R (l1.getLastD d1) (l2.getLastD d2) := by
  induction h with
  | nil => intro d1 d2 hd; exact hd
  | @cons a b l1' l2' hab _ ih =>
    intro d1 d2 _
    rw [List.getLastD_cons, List.getLastD_cons]
    exact ih a b hab

/-- Two recorded `(time, state)` pairs that agree on the time, both depths
and both solid velocity components — they may differ arbitrarily in the
fluid velocity fields `u_fluid`, `v_fluid`. -/
def FluidVelAgree (a b : ℚ × FlowState) : Prop :=
  a.1 = b.1 ∧ a.2.h_solid = b.2.h_solid ∧ a.2.h_fluid = b.2.h_fluid
    ∧ a.2.u_solid = b.2.u_solid ∧ a.2.v_solid = b.2.v_solid

/-- C8: the exported velocity results are computed from the solid phase
only — two output sequences that differ only in the fluid velocity fields
of their snapshots yield identical `max_velocity`, `final_u` and `final_v`,
and `final_u`/`final_v` are the solid components `u_solid`/`v_solid` of the
last snapshot. -/
theorem C8_fluid_velocity_noninterference (p : FlowParameters)
    (o1 o2 : List (ℚ × FlowState)) (h : List.Forall₂ FluidVelAgree o1 o2) :
    (buildResults p o1).max_velocity = (buildResults p o2).max_velocity
    ∧ (buildResults p o1).final_u = (buildResults p o2).final_u
    ∧ (buildResults p o1).final_v = (buildResults p o2).final_v
    ∧ ∀ (hne : o1 ≠ []),
        (buildResults p o1).final_u = (o1.getLast hne).2.u_solid
        ∧ (buildResults p o1).final_v = (o1.getLast hne).2.v_solid := by
  have hlast : FluidVelAgree (o1.getLastD (0, FlowState.zeros))
      (o2.getLastD (0, FlowState.zeros)) :=
    getLastD_rel h _ _ ⟨rfl, rfl, rfl, rfl, rfl⟩
  refine ⟨?_, ?_, ?_, ?_⟩
  · funext i j
    show accMax (fun s i j => speed s i j) (fun _ _ => 0) o1 i j
        = accMax (fun s i j => speed s i j) (fun _ _ => 0) o2 i j
    rw [accMax_apply, accMax_apply]
    refine foldl_max_congr h (fun a b hab => ?_) _
    unfold speed speedSq
    rw [hab.2.2.2.1, hab.2.2.2.2]
  · show (finalStateD o1).u_solid = (finalStateD o2).u_solid
    exact hlast.2.2.2.1
  · show (finalStateD o1).v_solid = (finalStateD o2).v_solid
    exact hlast.2.2.2.2
  · intro hne
    have hfin := finalStateD_eq_getLast o1 hne
    constructor
    · show (finalStateD o1).u_solid = _
      rw [hfin]
    · show (finalStateD o1).v_solid = _
      rw [hfin]

theorem telescopeX (rows cols : Nat) (Fx : Nat → Nat → ℚ)
    (h0 : ∀ j, Fx 0 j = 0) (hr : ∀ j, Fx rows j = 0) :
    gridSum rows cols (fun i j => Fx (i + 1) j - Fx i j) = 0 := by
  unfold gridSum
  rw [Finset.sum_comm]
  refine Finset.sum_eq_zero fun j _ => ?_
  rw [Finset.sum_range_sub (fun i => Fx i j) rows, h0 j, hr j, sub_zero]

theorem telescopeY (rows cols : Nat) (Fy : Nat → Nat → ℚ)
    (h0 : ∀ i, Fy i 0 = 0) (hc : ∀ i, Fy i cols = 0) :
    gridSum rows cols (fun i j => Fy i (j + 1) - Fy i j) = 0 := by
  unfold gridSum
  refine Finset.sum_eq_zero fun i _ => ?_
  rw [Finset.sum_range_sub (fun j => Fy i j) cols, h0 i, hc i, sub_zero]

theorem gridSum_step_solid (M : TwoPhaseRHS) (rows cols : Nat) (lam dt : ℚ)
    (s : FlowState) (hcl : ClosedDomain M rows cols) (hent : NoEntrainment M)
    (hnc : ∀ i, i < rows → ∀ j, j < cols → 0 ≤ rawHSolid M lam dt s i j) :
    gridSum rows cols (stepState M lam dt s).h_solid
      = gridSum rows cols s.h_solid := by
  have h1 : gridSum rows cols (stepState M lam dt s).h_solid
      = gridSum rows cols (fun i j => rawHSolid M lam dt s i j) := by
    unfold gridSum
    refine Finset.sum_congr rfl fun i hi => Finset.sum_congr rfl fun j hj => ?_
    exact max_eq_right (hnc i (Finset.mem_range.mp hi) j (Finset.mem_range.mp hj))
  have h3 : gridSum rows cols (fun i j => rawHSolid M lam dt s i j)
      = gridSum rows cols s.h_solid
        - lam * (gridSum rows cols
            (fun i j => M.fluxSolidX s (i + 1) j - M.fluxSolidX s i j)
          + gridSum rows cols
            (fun i j => M.fluxSolidY s i (j + 1) - M.fluxSolidY s i j)) := by
    unfold gridSum
    simp only [← Finset.sum_add_distrib, Finset.mul_sum, ← Finset.sum_sub_distrib]
    refine Finset.sum_congr rfl fun i _ => Finset.sum_congr rfl fun j _ => ?_
    unfold rawHSolid
    rw [(hent s i j).1]
    ring
  rw [h1, h3,
    telescopeX rows cols (M.fluxSolidX s)
      (fun j => (hcl.1 s j).1) (fun j => (hcl.1 s j).2.1),
    telescopeY rows cols (M.fluxSolidY s)
      (fun i => (hcl.2 s i).1) (fun i => (hcl.2 s i).2.1)]
  ring

theorem gridSum_step_fluid (M : TwoPhaseRHS) (rows cols : Nat) (lam dt : ℚ)
    (s : FlowState) (hcl : ClosedDomain M rows cols) (hent : NoEntrainment M)
    (hnc : ∀ i, i < rows → ∀ j, j < cols → 0 ≤ rawHFluid M lam dt s i j) :
    gridSum rows cols (stepState M lam dt s).h_fluid
      = gridSum rows cols s.h_fluid := by
  have h1 : gridSum rows cols (stepState M lam dt s).h_fluid
      = gridSum rows cols (fun i j => rawHFluid M lam dt s i j) := by
    unfold gridSum
    refine Finset.sum_congr rfl fun i hi => Finset.sum_congr rfl fun j hj => ?_
    exact max_eq_right (hnc i (Finset.mem_range.mp hi) j (Finset.mem_range.mp hj))
  have h3 : gridSum rows cols (fun i j => rawHFluid M lam dt s i j)
      = gridSum rows cols s.h_fluid
        - lam * (gridSum rows cols
            (fun i j => M.fluxFluidX s (i + 1) j - M.fluxFluidX s i j)
          + gridSum rows cols
            (fun i j => M.fluxFluidY s i (j + 1) - M.fluxFluidY s i j)) := by
    unfold gridSum
    simp only [← Finset.sum_add_distrib, Finset.mul_sum, ← Finset.sum_sub_distrib]
    refine Finset.sum_congr rfl fun i _ => Finset.sum_congr rfl fun j _ => ?_
    unfold rawHFluid
    rw [(hent s i j).2]
    ring
  rw [h1, h3,
    telescopeX rows cols (M.fluxFluidX s)
      (fun j => (hcl.1 s j).2.2.1) (fun j => (hcl.1 s j).2.2.2),
    telescopeY rows cols (M.fluxFluidY s)
      (fun i => (hcl.2 s i).2.2.1) (fun i => (hcl.2 s i).2.2.2)]
  ring

theorem volume_stateAt (M : TwoPhaseRHS) (rows cols : Nat) (cs : ℚ)
    (dts : Nat → ℚ) (s0 : FlowState)
    (hcl : ClosedDomain M rows cols) (hent : NoEntrainment M) :
    ∀ n, (∀ k, k < n → ∀ i, i < rows → ∀ j, j < cols →
        0 ≤ rawHSolid M (dts k / cs) (dts k) (stateAt M cs dts s0 k) i j
        ∧ 0 ≤ rawHFluid M (dts k / cs) (dts k) (stateAt M cs dts s0 k) i j) →
      volume rows cols cs (stateAt M cs dts s0 n) = volume rows cols cs s0 := by
  intro n
  induction n with
  | zero => intro _; rfl
  | succ n ih =>
    intro hnc
    have hs := gridSum_step_solid M rows cols (dts n / cs) (dts n)
      (stateAt M cs dts s0 n) hcl hent
      (fun i hi j hj => (hnc n (Nat.lt_succ_self n) i hi j hj).1)
    have hf := gridSum_step_fluid M rows cols (dts n / cs) (dts n)
      (stateAt M cs dts s0 n) hcl hent
      (fun i hi j hj => (hnc n (Nat.lt_succ_self n) i hi j hj).2)
    have hstep : volume rows cols cs (stateAt M cs dts s0 (n + 1))
        = volume rows cols cs (stateAt M cs dts s0 n) := by
      show volume rows cols cs
          (stepState M (dts n / cs) (dts n) (stateAt M cs dts s0 n)) = _
      unfold volume
      rw [hs, hf]
    rw [hstep]
    exact ih (fun k hk => hnc k (Nat.lt_succ_of_lt hk))

theorem getLastD_map_range {α : Type} (f : Nat → α) (n : Nat) (d : α) :
    ((List.range (n + 1)).map f).getLastD d = f n := by
  rw [List.range_succ, List.map_append]
  exact List.getLastD_concat _ _ _

/-- C1 (amended): with entrainment disabled, a closed domain (zero flux
through every boundary face) and the step-5 negative-depth clamp never
triggered along the run, the total mass `Σ(h_solid + h_fluid) * cell_size²`
is the same in every recorded snapshot of a `run_simulation` output
sequence, and the driver's final volume equals its initial volume. -/
theorem C1_mass_conservation (M : TwoPhaseRHS) (rows cols : Nat) (cs : ℚ)
    (dts : Nat → ℚ) (s0 : FlowState) (n : Nat)
    (hcl : ClosedDomain M rows cols) (hent : NoEntrainment M)
    (hnc : ∀ k, k < n → ∀ i, i < rows → ∀ j, j < cols →
        0 ≤ rawHSolid M (dts k / cs) (dts k) (stateAt M cs dts s0 k) i j
        ∧ 0 ≤ rawHFluid M (dts k / cs) (dts k) (stateAt M cs dts s0 k) i j) :
    (∀ ts ∈ run_simulation M cs dts s0 n,
        volume rows cols cs ts.2 = volume rows cols cs s0)
    ∧ volume rows cols cs (finalStateD (run_simulation M cs dts s0 n))
        = volume rows cols cs s0 := by
  constructor
  · intro ts hts
    obtain ⟨k, hk, rfl⟩ := List.mem_map.mp hts
    have hkn : k < n + 1 := List.mem_range.mp hk
    exact volume_stateAt M rows cols cs dts s0 hcl hent k
      (fun k' hk' i hi j hj => hnc k' (by omega) i hi j hj)
  · have hlast : finalStateD (run_simulation M cs dts s0 n)
        = stateAt M cs dts s0 n := by
      unfold finalStateD run_simulation
      rw [getLastD_map_range]
    rw [hlast]
    exact volume_stateAt M rows cols cs dts s0 hcl hent n hnc

/-- A model right-hand side on a 2×1 grid whose single interior x-face
carries a constant solid mass flux of 2, with zero boundary fluxes, zero
entrainment and zero momentum output: it drives the depth of the donor
cell negative in one step, so the clamp of §4.5 step 5 fires. -/
def cexRHS : TwoPhaseRHS where
  fluxSolidX := fun _ i _ => if i = 1 then 2 else 0
  fluxSolidY := fun _ _ _ => 0
  fluxFluidX := fun _ _ _ => 0
  fluxFluidY := fun _ _ _ => 0
  entrainSolid := fun _ _ _ => 0
  entrainFluid := fun _ _ _ => 0
  newUSolid := fun _ _ _ => 0
  newVSolid := fun _ _ _ => 0
  newUFluid := fun _ _ _ => 0
  newVFluid := fun _ _ _ => 0

/-- One unit of solid depth in cell (0,0) of a 2×1 grid, at rest. -/
def cexState0 : FlowState where
  h_solid := fun i _ => if i = 0 then 1 else 0
  h_fluid := fun _ _ => 0
  u_solid := fun _ _ => 0
  v_solid := fun _ _ => 0
  u_fluid := fun _ _ => 0
  v_fluid := fun _ _ => 0

/-- C1 counterexample: with entrainment disabled and zero flux through
every boundary face (closed domain), a recorded snapshot can still change
the total mass `Σ(h_solid + h_fluid) * cell_size²` — the negative-depth
clamp of step 5 adds mass when an update overdraws a cell, so the claim
fails without a no-clamping proviso. -/
theorem C1_counterexample :
    ClosedDomain cexRHS 2 1 ∧ NoEntrainment cexRHS
    ∧ ∃ ts ∈ run_simulation cexRHS 1 (fun _ => 1) cexState0 1,
        volume 2 1 1 ts.2 ≠ volume 2 1 1 cexState0 := by
  refine ⟨⟨fun s j => ⟨rfl, rfl, rfl, rfl⟩, fun s i => ⟨rfl, rfl, rfl, rfl⟩⟩,
    fun s i j => ⟨rfl, rfl⟩, ?_⟩
  refine ⟨(timeAt (fun _ => 1) 1, stateAt cexRHS 1 (fun _ => 1) cexState0 1),
    List.mem_map.mpr ⟨1, by simp, rfl⟩, ?_⟩
  show volume 2 1 1 (stepState cexRHS (1 / 1) 1 cexState0) ≠ volume 2 1 1 cexState0
  unfold volume gridSum stepState rawHSolid rawHFluid cexRHS cexState0
  norm_num [Finset.sum_range_succ]

/-- C2: after every state update both phase depths are non-negative (the
step-5 clamp), the velocity of a clamped phase is zeroed, and — given a
non-negative initial state — no recorded snapshot of a run contains a
negative depth. -/
theorem C2_depth_nonneg (M : TwoPhaseRHS) (cs lam dt : ℚ) (dts : Nat → ℚ)
    (s0 s : FlowState) (n : Nat)
    (h0 : ∀ i j, 0 ≤ s0.h_solid i j ∧ 0 ≤ s0.h_fluid i j) :
    (∀ i j, 0 ≤ (stepState M lam dt s).h_solid i j
      ∧ 0 ≤ (stepState M lam dt s).h_fluid i j)
    ∧ (∀ i j, rawHSolid M lam dt s i j < 0 →
        (stepState M lam dt s).h_solid i j = 0
        ∧ (stepState M lam dt s).u_solid i j = 0
        ∧ (stepState M lam dt s).v_solid i j = 0)
    ∧ (∀ i j, rawHFluid M lam dt s i j < 0 →
        (stepState M lam dt s).h_fluid i j = 0
        ∧ (stepState M lam dt s).u_fluid i j = 0
        ∧ (stepState M lam dt s).v_fluid i j = 0)
    ∧ (∀ ts ∈ run_simulation M cs dts s0 n, ∀ i j,
        0 ≤ ts.2.h_solid i j ∧ 0 ≤ ts.2.h_fluid i j) := by
  refine ⟨fun i j => ⟨le_max_left 0 _, le_max_left 0 _⟩, ?_, ?_, ?_⟩
  · intro i j hr
    exact ⟨max_eq_left hr.le, if_pos hr, if_pos hr⟩
  · intro i j hr
    exact ⟨max_eq_left hr.le, if_pos hr, if_pos hr⟩
  · have aux : ∀ k i j, 0 ≤ (stateAt M cs dts s0 k).h_solid i j
        ∧ 0 ≤ (stateAt M cs dts s0 k).h_fluid i j := by
      intro k
      cases k with
      | zero => exact h0
      | succ k => exact fun i j => ⟨le_max_left 0 _, le_max_left 0 _⟩
    intro ts hts i j
    obtain ⟨k, _, rfl⟩ := List.mem_map.mp hts
    exact aux k i j

/-- Pointwise agreement of two states on every field of every in-domain
cell. -/
def stateEqv (rows cols : Nat) (s s' : FlowState) : Prop :=
  ∀ i, i < rows → ∀ j, j < cols →
    s.h_solid i j = s'.h_solid i j ∧ s.h_fluid i j = s'.h_fluid i j
    ∧ s.u_solid i j = s'.u_solid i j ∧ s.v_solid i j = s'.v_solid i j
    ∧ s.u_fluid i j = s'.u_fluid i j ∧ s.v_fluid i j = s'.v_fluid i j

/-- The model right-hand side reads the state only through the in-domain
cells: states that agree there produce identical fluxes, entrainment rates
and velocity outputs. -/
def Respects (M : TwoPhaseRHS) (rows cols : Nat) : Prop :=
  ∀ s s', stateEqv rows cols s s' →
    M.fluxSolidX s = M.fluxSolidX s' ∧ M.fluxSolidY s = M.fluxSolidY s'
    ∧ M.fluxFluidX s = M.fluxFluidX s' ∧ M.fluxFluidY s = M.fluxFluidY s'
    ∧ M.entrainSolid s = M.entrainSolid s'
    ∧ M.entrainFluid s = M.entrainFluid s'
    ∧ M.newUSolid s = M.newUSolid s' ∧ M.newVSolid s = M.newVSolid s'
    ∧ M.newUFluid s = M.newUFluid s' ∧ M.newVFluid s = M.newVFluid s'

theorem stepState_eqv (M : TwoPhaseRHS) (rows cols : Nat) (lam dt : ℚ)
    (hM : Respects M rows cols) {s s' : FlowState}
    (h : stateEqv rows cols s s') :
    stateEqv rows cols (stepState M lam dt s) (stepState M lam dt s') := by
  obtain ⟨e1, e2, e3, e4, e5, e6, e7, e8, e9, e10⟩ := hM s s' h
  intro i hi j hj
  obtain ⟨d1, d2, _, _, _, _⟩ := h i hi j hj
  have hrs : rawHSolid M lam dt s i j = rawHSolid M lam dt s' i j := by
    unfold rawHSolid
    rw [d1, e1, e2, e5]
  have hrf : rawHFluid M lam dt s i j = rawHFluid M lam dt s' i j := by
    unfold rawHFluid
    rw [d2, e3, e4, e6]
  refine ⟨?_, ?_, ?_, ?_, ?_, ?_⟩
  · show max 0 (rawHSolid M lam dt s i j) = max 0 (rawHSolid M lam dt s' i j)
    rw [hrs]
  · show max 0 (rawHFluid M lam dt s i j) = max 0 (rawHFluid M lam dt s' i j)
    rw [hrf]
  · show (if rawHSolid M lam dt s i j < 0 then 0 else M.newUSolid s i j) = _
    rw [hrs, e7]
    rfl
  · show (if rawHSolid M lam dt s i j < 0 then 0 else M.newVSolid s i j) = _
    rw [hrs, e8]
    rfl
  · show (if rawHFluid M lam dt s i j < 0 then 0 else M.newUFluid s i j) = _
    rw [hrf, e9]
    rfl
  · show (if rawHFluid M lam dt s i j < 0 then 0 else M.newVFluid s i j) = _
    rw [hrf, e10]
    rfl

theorem stateAt_eqv (M : TwoPhaseRHS) (rows cols : Nat) (cs : ℚ)
    (dts : Nat → ℚ) {s0 s0' : FlowState} (hM : Respects M rows cols)
    (h0 : stateEqv rows cols s0 s0') :
    ∀ k, stateEqv rows cols (stateAt M cs dts s0 k) (stateAt M cs dts s0' k) := by
  intro k
  induction k with
  | zero => exact h0
  | succ k ih => exact stepState_eqv M rows cols (dts k / cs) (dts k) hM ih

theorem forall2_map_of_mem {α β γ : Type} (R : β → γ → Prop) (f : α → β)
    (g : α → γ) : ∀ l : List α, (∀ x ∈ l, R (f x) (g x)) →
      List.Forall₂ R (l.map f) (l.map g) := by
  intro l
  induction l with
  | nil => intro _; exact List.Forall₂.nil
  | cons a l ih =>
    intro h
    exact List.Forall₂.cons (h a (List.mem_cons_self a l))
      (ih fun x hx => h x (List.mem_cons_of_mem a hx))

/-- C6: deterministic replay — two runs of `run_simulation` whose inputs
agree (same model, cell size, timestep sequence, step count, and initial
states that agree on every in-domain cell) produce output sequences with
identical snapshot times and pointwise-identical states, and the driver's
post-processing is a deterministic function of the output sequence: the
two resulting `SimulationResults` agree in `times` and in every field at
every in-domain cell. -/
theorem C6_deterministic_replay (M : TwoPhaseRHS) (rows cols : Nat)
    (p : FlowParameters) (cs : ℚ) (dts : Nat → ℚ) (s0 s0' : FlowState)
    (n : Nat) (hM : Respects M rows cols) (h0 : stateEqv rows cols s0 s0') :
    (run_simulation M cs dts s0 n).map Prod.fst
        = (run_simulation M cs dts s0' n).map Prod.fst
    ∧ List.Forall₂ (fun a b => a.1 = b.1 ∧ stateEqv rows cols a.2 b.2)
        (run_simulation M cs dts s0 n) (run_simulation M cs dts s0' n)
    ∧ (buildResults p (run_simulation M cs dts s0 n)).times
        = (buildResults p (run_simulation M cs dts s0' n)).times
    ∧ (∀ i, i < rows → ∀ j, j < cols →
        (buildResults p (run_simulation M cs dts s0 n)).max_flow_height i j
          = (buildResults p (run_simulation M cs dts s0' n)).max_flow_height i j
        ∧ (buildResults p (run_simulation M cs dts s0 n)).max_velocity i j
          = (buildResults p (run_simulation M cs dts s0' n)).max_velocity i j
        ∧ (buildResults p (run_simulation M cs dts s0 n)).max_pressure i j
          = (buildResults p (run_simulation M cs dts s0' n)).max_pressure i j
        ∧ (buildResults p (run_simulation M cs dts s0 n)).final_h_solid i j
          = (buildResults p (run_simulation M cs dts s0' n)).final_h_solid i j
        ∧ (buildResults p (run_simulation M cs dts s0 n)).final_h_fluid i j
          = (buildResults p (run_simulation M cs dts s0' n)).final_h_fluid i j
        ∧ (buildResults p (run_simulation M cs dts s0 n)).final_u i j
          = (buildResults p (run_simulation M cs dts s0' n)).final_u i j
        ∧ (buildResults p (run_simulation M cs dts s0 n)).final_v i j
          = (buildResults p (run_simulation M cs dts s0' n)).final_v i j) := by
  have htimes : ∀ t0 : FlowState, (run_simulation M cs dts t0 n).map Prod.fst
      = (List.range (n + 1)).map (fun k => timeAt dts k) := by
    intro t0
    unfold run_simulation
    rw [List.map_map]
    rfl
  have hfa : List.Forall₂ (fun a b => a.1 = b.1 ∧ stateEqv rows cols a.2 b.2)
      (run_simulation M cs dts s0 n) (run_simulation M cs dts s0' n) := by
    unfold run_simulation
    refine forall2_map_of_mem _ _ _ (List.range (n + 1)) fun k _ => ?_
    exact ⟨rfl, stateAt_eqv M rows cols cs dts hM h0 k⟩
  have hlast : (run_simulation M cs dts s0 n).getLastD (0, FlowState.zeros)
      |>.2 |> stateEqv rows cols <|
      ((run_simulation M cs dts s0' n).getLastD (0, FlowState.zeros)).2 :=
    (getLastD_rel hfa (0, FlowState.zeros) (0, FlowState.zeros)
      ⟨rfl, fun i _ j _ => ⟨rfl, rfl, rfl, rfl, rfl, rfl⟩⟩).2
  refine ⟨by rw [htimes s0, htimes s0'], hfa, by
    show (run_simulation M cs dts s0 n).map Prod.fst
        = (run_simulation M cs dts s0' n).map Prod.fst
    rw [htimes s0, htimes s0'], ?_⟩
  intro i hi j hj
  have hcell := hlast i hi j hj
  refine ⟨?_, ?_, ?_, hcell.1, hcell.2.1, hcell.2.2.1, hcell.2.2.2.1⟩
  · show accMax (fun s i j => h_total s i j) (fun _ _ => 0)
        (run_simulation M cs dts s0 n) i j = accMax _ _ _ i j
    rw [accMax_apply, accMax_apply]
    refine foldl_max_congr hfa (fun a b hab => ?_) _
    have hc := hab.2 i hi j hj
    unfold h_total
    rw [hc.1, hc.2.1]
  · show accMax (fun s i j => speed s i j) (fun _ _ => 0)
        (run_simulation M cs dts s0 n) i j = accMax _ _ _ i j
    rw [accMax_apply, accMax_apply]
    refine foldl_max_congr hfa (fun a b hab => ?_) _
    have hc := hab.2 i hi j hj
    unfold speed speedSq
    rw [hc.2.2.1, hc.2.2.2.1]
  · show accMax (fun s i j => computeImpactPressure p s i j) (fun _ _ => 0)
        (run_simulation M cs dts s0 n) i j = accMax _ _ _ i j
    rw [accMax_apply, accMax_apply]
    refine foldl_max_congr hfa (fun a b hab => ?_) _
    have hc := hab.2 i hi j hj
    unfold computeImpactPressure speedSq
    rw [hc.1, hc.2.1, hc.2.2.1, hc.2.2.2.1, hc.2.2.2.2.1, hc.2.2.2.2.2]

/-! ### Concrete instantiation data for the witnesses -/

/-- The all-zero right-hand side: zero fluxes, zero entrainment, zero
velocity output. -/
def zeroRHS : TwoPhaseRHS where
  fluxSolidX := fun _ _ _ => 0
  fluxSolidY := fun _ _ _ => 0
  fluxFluidX := fun _ _ _ => 0
  fluxFluidY := fun _ _ _ => 0
  entrainSolid := fun _ _ _ => 0
  entrainFluid := fun _ _ _ => 0
  newUSolid := fun _ _ _ => 0
  newVSolid := fun _ _ _ => 0
  newUFluid := fun _ _ _ => 0
  newVFluid := fun _ _ _ => 0

/-- The constant unit timestep sequence. -/
def oneSeq : Nat → ℚ := fun _ => 1

/-- A 2×1 max-height grid whose second row is the only one with a positive
row-sum. -/
def witnessGrid : Nat → Nat → ℚ := fun i _ => if i = 1 then 1 else 0

/-- The zero state with a unit fluid x-velocity everywhere. -/
def fluidKick : FlowState :=
  { FlowState.zeros with u_fluid := fun _ _ => 1 }

theorem C1_mass_conservation_witness :
    volume 1 1 1 (finalStateD (run_simulation zeroRHS 1 oneSeq FlowState.zeros 1))
      = volume 1 1 1 FlowState.zeros :=
  (C1_mass_conservation zeroRHS 1 1 1 oneSeq FlowState.zeros 1
    ⟨fun _ _ => ⟨rfl, rfl, rfl, rfl⟩, fun _ _ => ⟨rfl, rfl, rfl, rfl⟩⟩
    (fun _ _ _ => ⟨rfl, rfl⟩)
    (fun k hk i _ j _ => by
      have hk0 : k = 0 := Nat.lt_one_iff.mp hk
      subst hk0
      constructor <;>
        simp [rawHSolid, rawHFluid, zeroRHS, stateAt, FlowState.zeros])).2

theorem C2_depth_nonneg_witness :
    0 ≤ (stepState zeroRHS 1 1 FlowState.zeros).h_solid 0 0 :=
  ((C2_depth_nonneg zeroRHS 1 1 1 oneSeq FlowState.zeros FlowState.zeros 1
    (fun _ _ => ⟨le_refl 0, le_refl 0⟩)).1 0 0).1

theorem C3_running_maxima_witness :
    h_total FlowState.zeros 0 0
      ≤ (buildResults syntheticParams [(0, FlowState.zeros)]).max_flow_height 0 0 :=
  (C3_running_maxima syntheticParams [(0, FlowState.zeros)]
    (List.cons_ne_nil _ _)
    (fun ts hts i j => by
      rw [List.mem_singleton] at hts
      subst hts
      exact ⟨le_refl 0, le_refl 0⟩)
    (by decide) (by decide) 0 0).1.2 (0, FlowState.zeros)
      (List.mem_singleton.mpr rfl)

theorem C4_results_record_witness :
    (buildResults syntheticParams [(0, FlowState.zeros)]).times
      = [(0, FlowState.zeros)].map Prod.fst ∧
    (buildResults syntheticParams [(0, FlowState.zeros)]).final_h_solid
      = (([(0, FlowState.zeros)]).getLast (List.cons_ne_nil _ _)).2.h_solid := by
  have h := C4_results_record syntheticParams ⟨80, 60, 10, 0, 0⟩
    [(0, FlowState.zeros)] (List.cons_ne_nil _ _)
  exact ⟨h.1, h.2.2.2.2.1⟩

theorem C5_runout_witness :
    runoutIdx witnessGrid 2 1 < 2
    ∧ 0 < rowSum witnessGrid 1 (runoutIdx witnessGrid 2 1)
    ∧ runoutDistance witnessGrid 2 1 10 = 10 * (runoutIdx witnessGrid 2 1 : ℚ) := by
  have h := (C5_runout witnessGrid 2 1 10).2 1 (by decide)
    (by simp [rowSum, witnessGrid])
  exact ⟨h.1, h.2.1, h.2.2.2⟩

theorem C6_deterministic_replay_witness :
    (buildResults syntheticParams
        (run_simulation zeroRHS 1 oneSeq FlowState.zeros 1)).max_flow_height 0 0
      = (buildResults syntheticParams
        (run_simulation zeroRHS 1 oneSeq FlowState.zeros 1)).max_flow_height 0 0 :=
  (((C6_deterministic_replay zeroRHS 1 1 syntheticParams 1 oneSeq
    FlowState.zeros FlowState.zeros 1
    (fun _ _ _ => ⟨rfl, rfl, rfl, rfl, rfl, rfl, rfl, rfl, rfl, rfl⟩)
    (fun _ _ _ _ => ⟨rfl, rfl, rfl, rfl, rfl, rfl⟩)).2.2.2) 0 (by decide) 0
      (by decide)).1

theorem C8_fluid_velocity_noninterference_witness :
    (buildResults syntheticParams [(0, FlowState.zeros)]).max_velocity
      = (buildResults syntheticParams [(0, fluidKick)]).max_velocity :=
  (C8_fluid_velocity_noninterference syntheticParams
    [(0, FlowState.zeros)] [(0, fluidKick)]
    (List.Forall₂.cons ⟨rfl, rfl, rfl, rfl, rfl⟩ List.Forall₂.nil)).1

end PyDebFlow
